import Mathlib

/-!
Verification of the funcbench environment layer (`funcbench/env.go`):
the markdown table transformer `formatCommentToMD`, and the construction
logic of the Local and GitHub (Remote) environments.

Strings are modelled as `List Char`.  Effectful steps (file reads, git
clone/fetch/checkout, directory changes, comment posting) are modelled by
a "world" record holding the outcome of each step, and the constructors
become pure functions of that world, mirroring the Go control flow.
-/

namespace Funcbench

/-- Strings from the Go side, modelled as lists of characters. -/
abbrev Str := List Char

/-- Whitespace as used by Go `strings.Fields` (ASCII fragment of
`unicode.IsSpace`): space, tab, newline, vertical tab, form feed,
carriage return. -/
def isSpaceChar (c : Char) : Bool :=
  c = ' ' || c = '\t' || c = '\n' || c = '\x0B' || c = '\x0C' || c = '\r'

/-- Model of Go `strings.Fields`: split around runs of whitespace. -/
def fields : Str → List Str
  | [] => []
  | c :: cs =>
    if isSpaceChar c then fields cs
    else (c :: cs.takeWhile (fun d => !isSpaceChar d))
           :: fields (cs.dropWhile (fun d => !isSpaceChar d))
termination_by s => s.length
decreasing_by
· simp
· have h := (List.dropWhile_sublist (l := cs) (fun d => !isSpaceChar d)).length_le
  simp
  omega

/-- Model of Go `strings.Join(xs, "|")`. -/
def joinPipe : List Str → Str
  | [] => []
  | [x] => x
  | x :: y :: ys => x ++ '|' :: joinPipe (y :: ys)

/-- Model of Go `strings.Contains hay needle` (first argument is the
needle here). -/
def hasSub (needle : Str) : Str → Bool
  | [] => needle.isEmpty
  | c :: t => needle.isPrefixOf (c :: t) || hasSub needle t

/-- Model of Go `strings.Split s "\n"`. -/
def splitNl : Str → List Str
  | [] => [[]]
  | c :: cs =>
    if c = '\n' then [] :: splitNl cs
    else
      match splitNl cs with
      | [] => [[c]]
      | t :: ts => (c :: t) :: ts

/-- Model of Go `strings.Join l "\n"`. -/
def joinNl : List Str → Str
  | [] => []
  | [x] => x
  | x :: y :: ys => x ++ '\n' :: joinNl (y :: ys)

/-- The `"old ns/op"` metric marker. -/
def markerNs : Str := "old ns/op".toList

/-- The `"old MB/s"` metric marker. -/
def markerMB : Str := "old MB/s".toList

/-- The `"old allocs"` metric marker. -/
def markerAllocs : Str := "old allocs".toList

/-- The `"old bytes"` metric marker. -/
def markerBytes : Str := "old bytes".toList

/-- Markdown header substituted for a line containing `"old ns/op"`. -/
def hdrNs : Str := "| Benchmark | Old ns/op | New ns/op | Delta |".toList

/-- Markdown header substituted for a line containing `"old MB/s"`. -/
def hdrMB : Str := "| Benchmark | Old MB/s | New MB/s | Speedup |".toList

/-- Markdown header substituted for a line containing `"old allocs"`. -/
def hdrAllocs : Str := "| Benchmark | Old allocs | New allocs | Delta |".toList

/-- Markdown header substituted for a line containing `"old bytes"`. -/
def hdrBytes : Str := "| Benchmark | Old bytes | New bytes | Delta |".toList

/-- The separator row `"|-|-|-|-|"` inserted below each translated header. -/
def sepRow : Str := "|-|-|-|-|".toList

/-- A line containing one of the four metric markers. -/
def isMarkerLine (e : Str) : Bool :=
  hasSub markerNs e || hasSub markerMB e || hasSub markerAllocs e || hasSub markerBytes e

/-- The loop of `formatCommentToMD` over the split lines.  The Go loop
walks an index through the (mutated) slice; replacing a marker line by
its header and inserting the separator at the next index is modelled by
recursing on `sepRow :: rest` — exactly as the Go loop visits the freshly
inserted separator row on its next iteration. -/
def goLines : List Str → List Str
  | [] => []
  | e :: rest =>
    if e = [] then e :: goLines rest
    else if hasSub markerNs e then hdrNs :: goLines (sepRow :: rest)
    else if hasSub markerMB e then hdrMB :: goLines (sepRow :: rest)
    else if hasSub markerAllocs e then hdrAllocs :: goLines (sepRow :: rest)
    else if hasSub markerBytes e then hdrBytes :: goLines (sepRow :: rest)
    else joinPipe (fields e) :: goLines rest
termination_by l => l.length + l.countP isMarkerLine
decreasing_by
all_goals
  have hs : isMarkerLine sepRow = false := by decide
  simp only [List.length_cons, List.countP_cons, hs, isMarkerLine]
  try simp_all
  try omega
  try decide

/-- Model of Go `formatCommentToMD`: split on newlines, rewrite the
lines, join back with newlines. -/
def formatCommentToMD (rawTable : Str) : Str :=
  joinNl (goLines (splitNl rawTable))

/-- What a single input line is rewritten to in place (header lines get
their markdown header, blank lines pass through, other lines are their
fields joined with pipes), with the same case priority as the Go switch. -/
def transformLine (e : Str) : Str :=
  if e = [] then e
  else if hasSub markerNs e then hdrNs
  else if hasSub markerMB e then hdrMB
  else if hasSub markerAllocs e then hdrAllocs
  else if hasSub markerBytes e then hdrBytes
  else joinPipe (fields e)

/-- The output lines a single input line contributes: its in-place
transform, followed by a separator row when it is a marker line. -/
def lineOutput (e : Str) : List Str :=
  if isMarkerLine e then [transformLine e, sepRow] else [transformLine e]

/-- A line holding at least one non-whitespace character. -/
def nonBlank (e : Str) : Bool := e.any (fun c => !isSpaceChar c)

/-! ## Environment construction (`newLocalEnv`, `newGitHubEnv`) -/

/-- Go errors crossing the environment layer.  `msg` stands for an
opaque underlying error (`errors.New`, I/O errors, API errors);
the git sentinel errors get their own constructors; `wrap` is
`errors.Wrap`, and `wrapWithPostErr` is the `errors.Wrapf` call that
folds a failed comment post into the original error. -/
inductive GoError where
  | msg (s : Str)
  | repositoryAlreadyExists
  | repositoryNotExists
  | noErrAlreadyUpToDate
  | wrap (m : Str) (e : GoError)
  | wrapWithPostErr (m : Str) (e : GoError) (pErr : GoError)
  deriving DecidableEq

/-- Opaque repository handle (`*git.Repository`). -/
structure Repo where
  id : Nat
  deriving DecidableEq

/-- Opaque worktree handle (`*git.Worktree`). -/
structure Worktree where
  id : Nat
  deriving DecidableEq

/-- The data `newGitHubEnv` reads out of a parsed issue-comment event. -/
structure IssueCommentEvent where
  ownerLogin : Str
  repoName : Str
  issueNumber : Nat
  deriving DecidableEq

/-- Outcome of `github.ParseWebHook` followed by the type assertion
`event.(*github.IssueCommentEvent)`. -/
inductive ParsedEvent where
  | issueComment (e : IssueCommentEvent)
  | otherEvent
  deriving DecidableEq

/-- The shared `environment` struct (the `logger` field carries no
observable state and is omitted). -/
structure environment where
  benchFunc : Str
  compareTarget : Str
  isRaceEnabled : Bool
  home : Str
  deriving DecidableEq

/-- The `Local` environment value. -/
structure Local where
  env : environment
  repo : Repo
  deriving DecidableEq

/-- The `gitHubClient` struct (the embedded API client handle is
opaque and omitted). -/
structure GitHubClient where
  owner : Str
  repo : Str
  latestCommitHash : Str
  prNumber : Nat
  deriving DecidableEq

/-- The `GitHub` environment value. -/
structure GitHub where
  env : environment
  repo : Repo
  client : GitHubClient
  logLink : Str
  deriving DecidableEq

/-- World for Local construction.  `versionControlled` states that the
working directory or one of its ancestors is version-controlled. -/
structure LocalWorld where
  versionControlled : Bool
  foundRepo : Repo

/-- Modelled from the spec: the repository-opening call used by Local
construction (go-git `PlainOpenWithOptions` with `DetectDotGit: true`,
a library call outside this repository) searches the working directory
and its ancestors and yields the repository found there, failing with
the not-a-repository error when neither the directory nor any ancestor
is version-controlled. -/
def plainOpenWithOptionsDetect (w : LocalWorld) : Except GoError Repo :=
  if w.versionControlled then .ok w.foundRepo else .error .repositoryNotExists

/-- Model of `newLocalEnv`: open the repository at `"."` (detecting the git dir
upward); any error aborts, otherwise wrap it in a `Local`. -/
def newLocalEnv (w : LocalWorld) (e : environment) : Except GoError Local :=
  match plainOpenWithOptionsDetect w with
  | .error err => .error err
  | .ok r => .ok { env := e, repo := r }

/-- Model of `Local.PostErr` from the source: a no-op returning no error. -/
def Local.PostErr (_l : Local) (_err : Str) : Option GoError := none

/-- World for Remote (GitHub) construction: the outcome of every
effectful step `newGitHubEnv` performs, in program order, plus the
environment variables it reads.  `postComment` is the outcome of
posting a given comment body to the issue. -/
structure GitHubWorld where
  eventFileData : Except GoError Str
  parsedEvent : Except GoError ParsedEvent
  chdirWorkspace : Option GoError
  cloneResult : Except GoError Repo
  regexFileData : Except GoError Str
  raceFileData : Except GoError Str
  branchFileData : Except GoError Str
  chdirRepoDir : Option GoError
  setGo111Module : Option GoError
  setCgoEnabled : Option GoError
  worktreeResult : Except GoError Worktree
  fetchResult : Option GoError
  checkoutResult : Option GoError
  postComment : Str → Option GoError
  githubSha : Str
  homeDir : Str

/-- Model of `newGitHubClient`: identity derived from the event plus the
`GITHUB_SHA` variable. -/
def newGitHubClient (issue : IssueCommentEvent) (w : GitHubWorld) : GitHubClient :=
  { owner := issue.ownerLogin
    repo := issue.repoName
    prNumber := issue.issueNumber
    latestCommitHash := w.githubSha }

/-- The `logLink` format string of `newGitHubEnv`. -/
def formatLogLink (c : GitHubClient) : Str :=
  "Full logs at: https://github.com/".toList ++ c.owner ++ "/".toList ++ c.repo
    ++ "/commit/".toList ++ c.latestCommitHash ++ "/checks".toList

/-- Model of `GitHub.PostErr`: post `"<err>. Logs: <logLink>"`; a posting failure
comes back wrapped with `"posting err"`. -/
def GitHub.PostErr (g : GitHub) (w : GitHubWorld) (err : Str) : Option GoError :=
  match w.postComment (err ++ ". Logs: ".toList ++ g.logLink) with
  | some e => some (.wrap ("posting err".toList) e)
  | none => none

/-- The message `errors.Wrapf` uses when a fetch/checkout failure is
combined with a comment-posting failure. -/
def postCombineMsg : Str :=
  "posting a comment for `checkout` command execution error; postComment err:".toList

/-- The checkout step at the end of `newGitHubEnv`: a checkout failure
first posts a diagnostic comment; if posting fails too, both errors are
combined, otherwise the checkout error itself is returned. -/
def checkoutStep (g : GitHub) (w : GitHubWorld) : Except GoError GitHub :=
  match w.checkoutResult with
  | some cerr =>
    match g.PostErr w ("Switch to a pull request branch failed".toList) with
    | some pErr => .error (.wrapWithPostErr postCombineMsg cerr pErr)
    | none => .error cerr
  | none => .ok g

/-- The fetch step of `newGitHubEnv`: a fetch error other than the
already-up-to-date sentinel posts a diagnostic comment and aborts
(combining the two errors when posting fails too); otherwise
construction proceeds to the checkout step. -/
def fetchStep (g : GitHub) (w : GitHubWorld) : Except GoError GitHub :=
  match w.fetchResult with
  | some ferr =>
    if ferr = GoError.noErrAlreadyUpToDate then checkoutStep g w
    else
      match g.PostErr w ("Switch (fetch) to a pull request branch failed".toList) with
      | some pErr => .error (.wrapWithPostErr postCombineMsg ferr pErr)
      | none => .error ferr
  | none => checkoutStep g w

/-- Model of `newGitHubEnv` over a world of step outcomes, in the exact order of
the source: read the event file, parse it, change into the workspace,
require an issue-comment event, clone (any clone error, the
already-exists one included, is wrapped with `"git clone"` and
returned), build the client, read the three side-channel files, change
into the clone, build the `GitHub` value (race detection enabled unless
the race file reads exactly `"-no-race"`), set the two build variables,
take the worktree, then fetch and checkout. -/
def newGitHubEnv (w : GitHubWorld) : Except GoError GitHub :=
  match w.eventFileData with
  | .error e => .error e
  | .ok _data =>
  match w.parsedEvent with
  | .error e => .error e
  | .ok ev =>
  match w.chdirWorkspace with
  | some e => .error e
  | none =>
  match ev with
  | .otherEvent => .error (.msg ("only issue_comment event is supported".toList))
  | .issueComment issue =>
  match w.cloneResult with
  | .error e => .error (.wrap ("git clone".toList) e)
  | .ok r =>
  let ghClient := newGitHubClient issue w
  match w.regexFileData with
  | .error e => .error e
  | .ok benchFunc =>
  match w.raceFileData with
  | .error e => .error e
  | .ok raceArgument =>
  match w.branchFileData with
  | .error e => .error e
  | .ok compareTarget =>
  match w.chdirRepoDir with
  | some e => .error (.wrap ("changing to GITHUB_WORKSPACE dir".toList) e)
  | none =>
  let g : GitHub :=
    { env :=
        { benchFunc := benchFunc
          compareTarget := compareTarget
          isRaceEnabled := decide (raceArgument ≠ "-no-race".toList)
          home := w.homeDir }
      repo := r
      client := ghClient
      logLink := formatLogLink ghClient }
  match w.setGo111Module with
  | some e => .error e
  | none =>
  match w.setCgoEnabled with
  | some e => .error e
  | none =>
  match w.worktreeResult with
  | .error e => .error e
  | .ok _wt => fetchStep g w

/-! ## Concrete worlds used to exercise the constructors -/

/-- A concrete issue-comment event. -/
def sampleEvent : IssueCommentEvent :=
  { ownerLogin := "prometheus".toList
    repoName := "prometheus".toList
    issueNumber := 42 }

/-- A world in which every step of `newGitHubEnv` succeeds. -/
def baseWorld : GitHubWorld :=
  { eventFileData := .ok ("payload".toList)
    parsedEvent := .ok (.issueComment sampleEvent)
    chdirWorkspace := none
    cloneResult := .ok ⟨7⟩
    regexFileData := .ok ("BenchmarkAll".toList)
    raceFileData := .ok ("-no-race".toList)
    branchFileData := .ok ("master".toList)
    chdirRepoDir := none
    setGo111Module := none
    setCgoEnabled := none
    worktreeResult := .ok ⟨3⟩
    fetchResult := none
    checkoutResult := none
    postComment := fun _ => none
    githubSha := "abc123".toList
    homeDir := "/root".toList }

/-- The client `newGitHubEnv` derives in `baseWorld`. -/
def baseClient : GitHubClient :=
  { owner := "prometheus".toList
    repo := "prometheus".toList
    prNumber := 42
    latestCommitHash := "abc123".toList }

/-- The environment value `newGitHubEnv` returns in `baseWorld`. -/
def baseGitHub : GitHub :=
  { env :=
      { benchFunc := "BenchmarkAll".toList
        compareTarget := "master".toList
        isRaceEnabled := false
        home := "/root".toList }
    repo := ⟨7⟩
    client := baseClient
    logLink := formatLogLink baseClient }

/-- Like `baseWorld` except that the clone fails because the repository
already exists at the destination. -/
def cloneExistsWorld : GitHubWorld :=
  { baseWorld with cloneResult := .error .repositoryAlreadyExists }

/-- Like `baseWorld` except that the fetch reports already-up-to-date. -/
def upToDateWorld : GitHubWorld :=
  { baseWorld with fetchResult := some .noErrAlreadyUpToDate }

/-- Like `baseWorld` except that the fetch fails with an opaque error. -/
def fetchFailWorld : GitHubWorld :=
  { baseWorld with fetchResult := some (.msg ("conn reset".toList)) }

/-- A concrete Local world sitting inside a repository, and one outside. -/
def insideRepoWorld : LocalWorld := { versionControlled := true, foundRepo := ⟨5⟩ }

/-- A Local world where neither the directory nor any ancestor is
version-controlled. -/
def outsideRepoWorld : LocalWorld := { versionControlled := false, foundRepo := ⟨5⟩ }

/-- A concrete `environment` for Local construction. -/
def sampleEnvironment : environment :=
  { benchFunc := "BenchmarkAll".toList
    compareTarget := "master".toList
    isRaceEnabled := true
    home := "/root".toList }

/-! ## Supporting lemmas -/

theorem hasSub_spec (n s : Str) : hasSub n s = true ↔ n <:+: s := by
  induction s with
  | nil => simp [hasSub, List.isEmpty_iff]
  | cons c t ih => simp [hasSub, List.infix_cons_iff, ih]

theorem isMarkerLine_nonBlank {e : Str} (h : isMarkerLine e = true) : nonBlank e = true := by
  have ho : 'o' ∈ e := by
    simp only [isMarkerLine, Bool.or_eq_true] at h
    rcases h with ((h | h) | h) | h <;>
      exact ((hasSub_spec _ _).mp h).subset (by decide)
  simp only [nonBlank, List.any_eq_true]
  exact ⟨'o', ho, by decide⟩

theorem isMarkerLine_ne_nil {e : Str} (h : isMarkerLine e = true) : e ≠ [] := by
  intro he
  subst he
  exact absurd h (by decide)

theorem fields_eq_nil_iff (s : Str) : fields s = [] ↔ nonBlank s = false := by
  induction s using fields.induct with
  | case1 => simp [fields, nonBlank]
  | case2 c cs hc ih => simp [fields, nonBlank, hc, ih]
  | case3 c cs hc ih => simp [fields, nonBlank, hc]

theorem mem_fields_spec {s f : Str} (hf : f ∈ fields s) :
    f ≠ [] ∧ ∀ c ∈ f, isSpaceChar c = false := by
  induction s using fields.induct with
  | case1 => simp [fields] at hf
  | case2 c cs hc ih =>
    simp only [fields, hc, if_true] at hf
    exact ih hf
  | case3 c cs hc ih =>
    simp only [fields, hc, if_false] at hf
    rcases List.mem_cons.mp hf with h | h
    · subst h
      refine ⟨by simp, ?_⟩
      intro d hd
      rcases List.mem_cons.mp hd with h | h
      · subst h
        simpa using hc
      · have := List.mem_takeWhile_imp h
        simpa using this
    · exact ih h

theorem nonBlank_joinPipe_fields (s : Str) : nonBlank (joinPipe (fields s)) = nonBlank s := by
  cases hf : fields s with
  | nil =>
    have hb := (fields_eq_nil_iff s).mp hf
    rw [hb]
    simp [joinPipe, nonBlank]
  | cons f fs =>
    have hmem : f ∈ fields s := by
      rw [hf]
      exact List.mem_cons_self f fs
    obtain ⟨hne, hns⟩ := mem_fields_spec hmem
    have hs : nonBlank s = true := by
      cases hb : nonBlank s with
      | false =>
        rw [(fields_eq_nil_iff s).mpr hb] at hf
        exact absurd hf (by simp)
      | true => rfl
    obtain ⟨c, hc⟩ := List.exists_mem_of_ne_nil f hne
    have hcj : c ∈ joinPipe (f :: fs) := by
      cases fs <;> simp [joinPipe, hc]
    rw [hs]
    simp only [nonBlank, List.any_eq_true]
    exact ⟨c, hcj, by simpa using hns c hc⟩

theorem goLines_sepRow_cons (rest : List Str) :
    goLines (sepRow :: rest) = sepRow :: goLines rest := by
  simp +decide [goLines, joinPipe, fields, isSpaceChar, sepRow,
    List.takeWhile, List.dropWhile]

theorem transformLine_sepRow : transformLine sepRow = sepRow := by
  simp +decide [transformLine, joinPipe, fields, isSpaceChar, sepRow,
    List.takeWhile, List.dropWhile]

theorem lineOutput_sepRow : lineOutput sepRow = [sepRow] := by
  have hsepM : isMarkerLine sepRow = false := by decide
  unfold lineOutput
  rw [if_neg (by simp [hsepM]), transformLine_sepRow]

theorem goLines_eq_flatMap (l : List Str) : goLines l = l.flatMap lineOutput := by
  have h0 : isMarkerLine ([] : Str) = false := by decide
  induction l using goLines.induct with
  | case1 => simp [goLines]
  | case2 ts ih =>
    rw [goLines]
    simp +decide [ih, lineOutput, transformLine]
  | case3 t ts hne hns ih =>
    have hmt : isMarkerLine t = true := by simp [isMarkerLine, hns]
    rw [goLines, if_neg hne, if_pos hns, ih, List.flatMap_cons, List.flatMap_cons,
      lineOutput_sepRow, lineOutput, if_pos hmt]
    simp only [transformLine, if_neg hne, if_pos hns]
    rfl
  | case4 t ts hne hn hmb ih =>
    have hmt : isMarkerLine t = true := by simp [isMarkerLine, hmb]
    rw [goLines, if_neg hne, if_neg hn, if_pos hmb, ih, List.flatMap_cons,
      List.flatMap_cons, lineOutput_sepRow, lineOutput, if_pos hmt]
    simp only [transformLine, if_neg hne, if_neg hn, if_pos hmb]
    rfl
  | case5 t ts hne hn hmb hal ih =>
    have hmt : isMarkerLine t = true := by simp [isMarkerLine, hal]
    rw [goLines, if_neg hne, if_neg hn, if_neg hmb, if_pos hal, ih, List.flatMap_cons,
      List.flatMap_cons, lineOutput_sepRow, lineOutput, if_pos hmt]
    simp only [transformLine, if_neg hne, if_neg hn, if_neg hmb, if_pos hal]
    rfl
  | case6 t ts hne hn hmb hal hby ih =>
    have hmt : isMarkerLine t = true := by simp [isMarkerLine, hby]
    rw [goLines, if_neg hne, if_neg hn, if_neg hmb, if_neg hal, if_pos hby, ih,
      List.flatMap_cons, List.flatMap_cons, lineOutput_sepRow, lineOutput, if_pos hmt]
    simp only [transformLine, if_neg hne, if_neg hn, if_neg hmb, if_neg hal, if_pos hby]
    rfl
  | case7 t ts hne hn hmb hal hby ih =>
    have hmt : isMarkerLine t = false := by
      simp [isMarkerLine, Bool.or_eq_false_iff]
      exact ⟨⟨⟨by simpa using hn, by simpa using hmb⟩, by simpa using hal⟩, by simpa using hby⟩
    rw [goLines, if_neg hne, if_neg hn, if_neg hmb, if_neg hal, if_neg hby, ih,
      List.flatMap_cons, lineOutput, if_neg (by simp [hmt])]
    simp only [transformLine, if_neg hne, if_neg hn, if_neg hmb, if_neg hal, if_neg hby]
    rfl

theorem flatMap_lineOutput_no_marker {a : List Str}
    (h : ∀ x ∈ a, isMarkerLine x = false) :
    a.flatMap lineOutput = a.map transformLine := by
  induction a with
  | nil => simp
  | cons x t ih =>
    have hx := h x (List.mem_cons_self x t)
    simp [lineOutput, hx, ih (fun y hy => h y (List.mem_cons_of_mem x hy))]

theorem transformLine_of_not_marker {x : Str} (hx : isMarkerLine x = false) (hxe : x ≠ []) :
    transformLine x = joinPipe (fields x) := by
  simp only [isMarkerLine, Bool.or_eq_false_iff] at hx
  obtain ⟨⟨⟨n1, n2⟩, n3⟩, n4⟩ := hx
  simp [transformLine, hxe, n1, n2, n3, n4]

theorem nonBlank_transformLine {x : Str} (hx : isMarkerLine x = false) :
    nonBlank (transformLine x) = nonBlank x := by
  by_cases hxe : x = []
  · subst hxe
    simp [transformLine]
  · rw [transformLine_of_not_marker hx hxe, nonBlank_joinPipe_fields]

theorem countP_nonBlank_map_transformLine {a : List Str}
    (h : ∀ x ∈ a, isMarkerLine x = false) :
    (a.map transformLine).countP nonBlank = a.countP nonBlank := by
  induction a with
  | nil => simp
  | cons x t ih =>
    have hx := h x (List.mem_cons_self x t)
    simp only [List.map_cons, List.countP_cons, nonBlank_transformLine hx,
      ih (fun y hy => h y (List.mem_cons_of_mem x hy))]

theorem transformLine_marker_cases {x : Str} (hx : isMarkerLine x = true) :
    transformLine x = hdrNs ∨ transformLine x = hdrMB ∨
      transformLine x = hdrAllocs ∨ transformLine x = hdrBytes := by
  have hxe := isMarkerLine_ne_nil hx
  simp only [isMarkerLine, Bool.or_eq_true] at hx
  by_cases h1 : hasSub markerNs x = true
  · left
    simp [transformLine, hxe, h1]
  · by_cases h2 : hasSub markerMB x = true
    · right; left
      simp [transformLine, hxe, h1, h2]
    · by_cases h3 : hasSub markerAllocs x = true
      · right; right; left
        simp [transformLine, hxe, h1, h2, h3]
      · have h4 : hasSub markerBytes x = true := by
          rcases hx with ((h | h) | h) | h <;> first | exact h | exact absurd h (by simp_all)
        right; right; right
        simp [transformLine, hxe, h1, h2, h3, h4]

theorem nonBlank_transformLine_marker {x : Str} (hx : isMarkerLine x = true) :
    nonBlank (transformLine x) = true := by
  rcases transformLine_marker_cases hx with h | h | h | h <;> rw [h] <;> decide

theorem countP_eq_one_decomp {α : Type} (p : α → Bool) {l : List α}
    (h : l.countP p = 1) :
    ∃ a x b, l = a ++ x :: b ∧ p x = true ∧
      (∀ y ∈ a, p y = false) ∧ (∀ y ∈ b, p y = false) := by
  induction l with
  | nil => simp at h
  | cons x t ih =>
    rw [List.countP_cons] at h
    by_cases hx : p x = true
    · rw [hx, if_pos rfl] at h
      have ht : t.countP p = 0 := by omega
      refine ⟨[], x, t, by simp, hx, by simp, ?_⟩
      intro y hy
      have := List.countP_eq_zero.mp ht y hy
      simpa using this
    · have hx' : p x = false := by simpa using hx
      rw [hx', if_neg (by simp)] at h
      simp only [Nat.add_zero] at h
      obtain ⟨a, z, b, hl, hz, ha, hb⟩ := ih h
      refine ⟨x :: a, z, b, by simp [hl], hz, ?_, hb⟩
      intro y hy
      rcases List.mem_cons.mp hy with hy | hy
      · subst hy
        exact hx'
      · exact ha y hy

theorem checkoutStep_ok {g g' : GitHub} {w : GitHubWorld}
    (h : checkoutStep g w = .ok g') : g' = g := by
  unfold checkoutStep at h
  split at h
  · split at h <;> simp at h
  · exact (Except.ok.injEq _ _ |>.mp h).symm

theorem fetchStep_ok {g g' : GitHub} {w : GitHubWorld}
    (h : fetchStep g w = .ok g') : g' = g := by
  unfold fetchStep at h
  split at h
  · split at h
    · exact checkoutStep_ok h
    · split at h <;> simp at h
  · exact checkoutStep_ok h

/-! ## Claim theorems -/

/-- C9: the markdown transform preserves line order end to end: the loop
output is exactly the in-place per-line transforms in input order, and a
line contributes its transform, followed by an inserted separator row
exactly when it is a marker line; no line is dropped or reordered. -/
theorem transform_preserves_line_order (l : List Str) :
    goLines l = l.flatMap lineOutput ∧
    ∀ e : Str, lineOutput e = [transformLine e] ∨
      lineOutput e = [transformLine e, sepRow] := by
  refine ⟨goLines_eq_flatMap l, ?_⟩
  intro e
  unfold lineOutput
  by_cases hm : isMarkerLine e = true
  · right
    rw [if_pos hm]
  · left
    rw [if_neg hm]

/-- C7: a non-blank line containing no metric marker is rewritten to its
whitespace-separated fields joined by single pipe characters in input
order, and a blank line passes through unchanged. -/
theorem plain_line_pipe_join (e : Str) (rest : List Str)
    (hne : e ≠ []) (hnm : isMarkerLine e = false) :
    goLines (e :: rest) = joinPipe (fields e) :: goLines rest ∧
    goLines ([] :: rest) = [] :: goLines rest := by
  simp only [isMarkerLine, Bool.or_eq_false_iff] at hnm
  obtain ⟨⟨⟨n1, n2⟩, n3⟩, n4⟩ := hnm
  constructor
  · rw [goLines, if_neg hne, if_neg (by simp [n1]), if_neg (by simp [n2]),
      if_neg (by simp [n3]), if_neg (by simp [n4])]
  · rw [goLines, if_pos rfl]

/-- Witness for C7 at the concrete line `"a b"`. -/
theorem plain_line_pipe_join_witness :
    goLines ["a b".toList] = joinPipe (fields ("a b".toList)) :: goLines [] :=
  (plain_line_pipe_join ("a b".toList) [] (by decide) (by decide)).1

/-- C6: a line containing exactly one of the four metric markers is
replaced by that marker's four-column markdown header, with the
separator row inserted immediately after it. -/
theorem marker_line_header_translation (e : Str) (rest : List Str) :
    (hasSub markerNs e = true ∧ hasSub markerMB e = false ∧
        hasSub markerAllocs e = false ∧ hasSub markerBytes e = false →
      goLines (e :: rest) = hdrNs :: sepRow :: goLines rest) ∧
    (hasSub markerNs e = false ∧ hasSub markerMB e = true ∧
        hasSub markerAllocs e = false ∧ hasSub markerBytes e = false →
      goLines (e :: rest) = hdrMB :: sepRow :: goLines rest) ∧
    (hasSub markerNs e = false ∧ hasSub markerMB e = false ∧
        hasSub markerAllocs e = true ∧ hasSub markerBytes e = false →
      goLines (e :: rest) = hdrAllocs :: sepRow :: goLines rest) ∧
    (hasSub markerNs e = false ∧ hasSub markerMB e = false ∧
        hasSub markerAllocs e = false ∧ hasSub markerBytes e = true →
      goLines (e :: rest) = hdrBytes :: sepRow :: goLines rest) := by
  refine ⟨?_, ?_, ?_, ?_⟩
  · rintro ⟨h1, h2, h3, h4⟩
    have hne : e ≠ [] := by
      rintro rfl
      exact absurd h1 (by decide)
    rw [goLines, if_neg hne, if_pos h1, goLines_sepRow_cons]
  · rintro ⟨h1, h2, h3, h4⟩
    have hne : e ≠ [] := by
      rintro rfl
      exact absurd h2 (by decide)
    rw [goLines, if_neg hne, if_neg (by simp [h1]), if_pos h2, goLines_sepRow_cons]
  · rintro ⟨h1, h2, h3, h4⟩
    have hne : e ≠ [] := by
      rintro rfl
      exact absurd h3 (by decide)
    rw [goLines, if_neg hne, if_neg (by simp [h1]), if_neg (by simp [h2]), if_pos h3,
      goLines_sepRow_cons]
  · rintro ⟨h1, h2, h3, h4⟩
    have hne : e ≠ [] := by
      rintro rfl
      exact absurd h4 (by decide)
    rw [goLines, if_neg hne, if_neg (by simp [h1]), if_neg (by simp [h2]),
      if_neg (by simp [h3]), if_pos h4, goLines_sepRow_cons]

/-- Witness for C6 at the line `"old MB/s"`. -/
theorem marker_line_header_translation_witness :
    goLines ["old MB/s".toList] = hdrMB :: sepRow :: goLines [] :=
  ((marker_line_header_translation ("old MB/s".toList) []).2).1
    ⟨by decide, by decide, by decide, by decide⟩

/-- C2: for a table whose lines contain exactly one marker line, the
output is the in-place transforms of all lines with exactly one extra
separator row, placed directly below the translated header, and the
non-blank line count grows by exactly one. -/
theorem single_marker_inserts_one_separator (l : List Str)
    (h : l.countP isMarkerLine = 1) :
    (∃ pre mid post, l = pre ++ mid :: post ∧ isMarkerLine mid = true ∧
        goLines l = pre.map transformLine
          ++ transformLine mid :: sepRow :: post.map transformLine) ∧
    (goLines l).countP nonBlank = l.countP nonBlank + 1 := by
  obtain ⟨pre, mid, post, hl, hmid, hpre, hpost⟩ := countP_eq_one_decomp isMarkerLine h
  subst hl
  have hgo : goLines (pre ++ mid :: post)
      = pre.map transformLine ++ transformLine mid :: sepRow :: post.map transformLine := by
    rw [goLines_eq_flatMap, List.flatMap_append, List.flatMap_cons,
      flatMap_lineOutput_no_marker hpre, flatMap_lineOutput_no_marker hpost]
    unfold lineOutput
    rw [if_pos hmid]
    rfl
  refine ⟨⟨pre, mid, post, rfl, hmid, hgo⟩, ?_⟩
  rw [hgo]
  simp only [List.countP_append, List.countP_cons,
    countP_nonBlank_map_transformLine hpre, countP_nonBlank_map_transformLine hpost,
    nonBlank_transformLine_marker hmid, isMarkerLine_nonBlank hmid]
  have hsep : nonBlank sepRow = true := by decide
  rw [hsep]
  simp
  try omega

/-- Witness for C2 at the one-line table `["old ns/op"]`. -/
theorem single_marker_inserts_one_separator_witness :
    (∃ pre mid post, ([markerNs] : List Str) = pre ++ mid :: post ∧
        isMarkerLine mid = true ∧
        goLines [markerNs] = pre.map transformLine
          ++ transformLine mid :: sepRow :: post.map transformLine) ∧
    (goLines [markerNs]).countP nonBlank
      = ([markerNs] : List Str).countP nonBlank + 1 :=
  single_marker_inserts_one_separator [markerNs] (by decide)

/-- C8: `PostErr` on a Local environment always returns no error. -/
theorem local_postErr_none (l : Local) (s : Str) : Local.PostErr l s = none := rfl

/-- C5: Local construction fails with the not-a-repository error exactly
when neither the working directory nor an ancestor is version-controlled,
and succeeds otherwise. -/
theorem local_env_requires_repository (w : LocalWorld) (e : environment) :
    (w.versionControlled = false →
      newLocalEnv w e = .error GoError.repositoryNotExists) ∧
    (w.versionControlled = true →
      newLocalEnv w e = .ok { env := e, repo := w.foundRepo }) := by
  constructor <;> intro h <;> simp [newLocalEnv, plainOpenWithOptionsDetect, h]

/-- Witness for C5: concrete worlds outside and inside a repository. -/
theorem local_env_requires_repository_witness :
    newLocalEnv outsideRepoWorld sampleEnvironment = .error GoError.repositoryNotExists ∧
    newLocalEnv insideRepoWorld sampleEnvironment
      = .ok { env := sampleEnvironment, repo := insideRepoWorld.foundRepo } :=
  ⟨(local_env_requires_repository outsideRepoWorld sampleEnvironment).1 rfl,
   (local_env_requires_repository insideRepoWorld sampleEnvironment).2 rfl⟩

/-- C1 counterexample: in a world where every step succeeds except that
the clone fails because the repository already exists at the
destination, construction does not continue: it returns the wrapped
clone error and never yields an environment. -/
theorem clone_already_exists_fails :
    newGitHubEnv cloneExistsWorld
        = .error (.wrap ("git clone".toList) .repositoryAlreadyExists) ∧
    ∀ g : GitHub, newGitHubEnv cloneExistsWorld ≠ .ok g :=
  ⟨rfl, fun _ h => Except.noConfusion h⟩

/-- C1 (amended): a clone failing with the already-exists error is not
ignored: `newGitHubEnv` returns it wrapped with `"git clone"`, like any
other clone failure. -/
theorem clone_already_exists_wrapped_error (w : GitHubWorld) (d : Str)
    (issue : IssueCommentEvent)
    (h1 : w.eventFileData = .ok d)
    (h2 : w.parsedEvent = .ok (.issueComment issue))
    (h3 : w.chdirWorkspace = none)
    (h4 : w.cloneResult = .error .repositoryAlreadyExists) :
    newGitHubEnv w = .error (.wrap ("git clone".toList) .repositoryAlreadyExists) := by
  simp only [newGitHubEnv, h1, h2, h3, h4]

/-- Witness for the amended C1 at the concrete already-exists world. -/
theorem clone_already_exists_wrapped_error_witness :
    newGitHubEnv cloneExistsWorld
      = .error (.wrap ("git clone".toList) .repositoryAlreadyExists) :=
  clone_already_exists_wrapped_error cloneExistsWorld ("payload".toList) sampleEvent
    rfl rfl rfl rfl

/-- C4: a fetch that reports "already up to date" is treated as success:
construction behaves exactly as if the fetch had returned no error,
proceeding to checkout. -/
theorem fetch_up_to_date_success (w : GitHubWorld)
    (hf : w.fetchResult = some GoError.noErrAlreadyUpToDate) :
    newGitHubEnv w = newGitHubEnv { w with fetchResult := none } := by
  obtain ⟨ed, pe, cw, cr, rf, raf, bf, crd, s1, s2, wtr, fr, co, pc, sha, home⟩ := w
  replace hf : fr = some GoError.noErrAlreadyUpToDate := hf
  subst hf
  cases ed with
  | error e => rfl
  | ok d =>
  cases pe with
  | error e => rfl
  | ok ev =>
  cases cw with
  | some e => rfl
  | none =>
  cases ev with
  | otherEvent => rfl
  | issueComment issue =>
  cases cr with
  | error e => rfl
  | ok r =>
  cases rf with
  | error e => rfl
  | ok bfv =>
  cases raf with
  | error e => rfl
  | ok racev =>
  cases bf with
  | error e => rfl
  | ok ctv =>
  cases crd with
  | some e => rfl
  | none =>
  cases s1 with
  | some e => rfl
  | none =>
  cases s2 with
  | some e => rfl
  | none =>
  cases wtr with
  | error e => rfl
  | ok wt => rfl

/-- Witness for C4 at a concrete world whose fetch reports
already-up-to-date. -/
theorem fetch_up_to_date_success_witness :
    newGitHubEnv upToDateWorld
      = newGitHubEnv { upToDateWorld with fetchResult := none } :=
  fetch_up_to_date_success upToDateWorld rfl

/-- C3: once construction has reached the fetch step, a fetch failure
other than already-up-to-date, and a checkout failure, each first post
one diagnostic comment; if the post succeeds the original error is
returned, and if the post fails the returned error combines the original
error with the posting error. -/
theorem fetch_checkout_failure_posts_comment (w : GitHubWorld) (d : Str)
    (issue : IssueCommentEvent) (r : Repo) (bfv racev ctv : Str) (wt : Worktree)
    (h1 : w.eventFileData = .ok d)
    (h2 : w.parsedEvent = .ok (.issueComment issue))
    (h3 : w.chdirWorkspace = none)
    (h4 : w.cloneResult = .ok r)
    (h5 : w.regexFileData = .ok bfv)
    (h6 : w.raceFileData = .ok racev)
    (h7 : w.branchFileData = .ok ctv)
    (h8 : w.chdirRepoDir = none)
    (h9 : w.setGo111Module = none)
    (h10 : w.setCgoEnabled = none)
    (h11 : w.worktreeResult = .ok wt) :
    (∀ ferr : GoError, ferr ≠ GoError.noErrAlreadyUpToDate →
      w.fetchResult = some ferr →
      (w.postComment ("Switch (fetch) to a pull request branch failed".toList
          ++ ". Logs: ".toList ++ formatLogLink (newGitHubClient issue w)) = none →
        newGitHubEnv w = .error ferr) ∧
      (∀ p : GoError,
        w.postComment ("Switch (fetch) to a pull request branch failed".toList
          ++ ". Logs: ".toList ++ formatLogLink (newGitHubClient issue w)) = some p →
        newGitHubEnv w
          = .error (.wrapWithPostErr postCombineMsg ferr
              (.wrap ("posting err".toList) p)))) ∧
    (∀ cerr : GoError, w.fetchResult = none → w.checkoutResult = some cerr →
      (w.postComment ("Switch to a pull request branch failed".toList
          ++ ". Logs: ".toList ++ formatLogLink (newGitHubClient issue w)) = none →
        newGitHubEnv w = .error cerr) ∧
      (∀ p : GoError,
        w.postComment ("Switch to a pull request branch failed".toList
          ++ ". Logs: ".toList ++ formatLogLink (newGitHubClient issue w)) = some p →
        newGitHubEnv w
          = .error (.wrapWithPostErr postCombineMsg cerr
              (.wrap ("posting err".toList) p)))) := by
  constructor
  · intro ferr hne hf
    constructor
    · intro hpc
      simp only [newGitHubEnv, h1, h2, h3, h4, h5, h6, h7, h8, h9, h10, h11,
        fetchStep, hf, if_neg hne, GitHub.PostErr, hpc]
    · intro p hpc
      simp only [newGitHubEnv, h1, h2, h3, h4, h5, h6, h7, h8, h9, h10, h11,
        fetchStep, hf, if_neg hne, GitHub.PostErr, hpc]
  · intro cerr hf hc
    constructor
    · intro hpc
      simp only [newGitHubEnv, h1, h2, h3, h4, h5, h6, h7, h8, h9, h10, h11,
        fetchStep, hf, checkoutStep, hc, GitHub.PostErr, hpc]
    · intro p hpc
      simp only [newGitHubEnv, h1, h2, h3, h4, h5, h6, h7, h8, h9, h10, h11,
        fetchStep, hf, checkoutStep, hc, GitHub.PostErr, hpc]

/-- Witness for C3: in a concrete world whose fetch fails and whose
comment post succeeds, the original fetch error is returned. -/
theorem fetch_checkout_failure_posts_comment_witness :
    newGitHubEnv fetchFailWorld = .error (.msg ("conn reset".toList)) :=
  ((fetch_checkout_failure_posts_comment fetchFailWorld ("payload".toList) sampleEvent
      ⟨7⟩ ("BenchmarkAll".toList) ("-no-race".toList) ("master".toList) ⟨3⟩
      rfl rfl rfl rfl rfl rfl rfl rfl rfl rfl rfl).1
    (.msg ("conn reset".toList)) (by decide) rfl).1 rfl

/-- C10: for every successfully constructed Remote environment, the race
detector is disabled exactly when the race side-channel file content is
the exact string `"-no-race"`; any other content (such as a trailing
newline or an empty file) leaves it enabled. -/
theorem race_enabled_iff_not_no_race (w : GitHubWorld) (g : GitHub)
    (h : newGitHubEnv w = .ok g) :
    (g.env.isRaceEnabled = false ↔ w.raceFileData = .ok ("-no-race".toList)) := by
  obtain ⟨ed, pe, cw, cr, rf, raf, bf, crd, s1, s2, wtr, fr, co, pc, sha, home⟩ := w
  unfold newGitHubEnv at h
  cases ed with
  | error e => simp at h
  | ok d =>
  cases pe with
  | error e => simp at h
  | ok ev =>
  cases cw with
  | some e => simp at h
  | none =>
  cases ev with
  | otherEvent => simp at h
  | issueComment issue =>
  cases cr with
  | error e => simp at h
  | ok r =>
  cases rf with
  | error e => simp at h
  | ok bfv =>
  cases raf with
  | error e => simp at h
  | ok racev =>
  cases bf with
  | error e => simp at h
  | ok ctv =>
  cases crd with
  | some e => simp at h
  | none =>
  cases s1 with
  | some e => simp at h
  | none =>
  cases s2 with
  | some e => simp at h
  | none =>
  cases wtr with
  | error e => simp at h
  | ok wt =>
  have hg := fetchStep_ok h
  subst hg
  simp

/-- Witness for C10 at the all-success world, whose race file reads
exactly `"-no-race"`. -/
theorem race_enabled_iff_not_no_race_witness :
    baseGitHub.env.isRaceEnabled = false ↔
      baseWorld.raceFileData = .ok ("-no-race".toList) :=
  race_enabled_iff_not_no_race baseWorld baseGitHub rfl

end Funcbench
